import Mathlib

/-!
Shallow embedding of the node-tree layout engine of the Figma live
design viewer (`src/App.js`): the bounding-box collector
`collectNodesWithBBox`, the envelope/scale computation of the `App`
`useMemo`, and the projection performed by the `FigmaNode` component
(rectangle / text / container dispatch, fill and text-style
resolution).  JavaScript numbers are modelled as rationals; the
JavaScript `||` fallback on numbers (which replaces `0` as well as
absent values by the default) and `Math.round` (half-up) are modelled
explicitly.  A thrown `TypeError` (the unguarded `fills[0].color.r`
access) is modelled by `Option.none`.
-/

namespace FigmaViewer

/-- `absoluteBoundingBox` of a node: `x`/`y` in document coordinates;
`width`/`height` may be absent (the source reads them as `width || 0`). -/
structure BoundingBox where
  x : ℚ
  y : ℚ
  width : Option ℚ
  height : Option ℚ
deriving Repr, DecidableEq

/-- Figma solid-fill color, channels in `[0,1]`. -/
structure FigmaColor where
  r : ℚ
  g : ℚ
  b : ℚ
  a : ℚ
deriving Repr, DecidableEq

/-- One entry of a node's `fills` list.  The `color` object may be
absent even when `type` is `"SOLID"` (the source does not guard the
`fills[0].color.r` access). -/
structure Fill where
  type : String
  color : Option FigmaColor
deriving Repr, DecidableEq

/-- The `style` descriptor of a TEXT node, both sub-fields optional. -/
structure TextStyle where
  fontSize : Option ℚ
  fontFamily : Option String
deriving Repr, DecidableEq

/-- A document node as consumed by `App.js`: type tag (`"RECTANGLE"`,
`"TEXT"`, or anything else, treated as a container), optional bounding
box, optional fill list, optional text content, optional text style,
and an ordered list of children (an absent `children` field and an
empty array behave identically in the source, so both are `[]`). -/
inductive DocumentNode : Type where
  | mk (id name type : String)
       (absoluteBoundingBox : Option BoundingBox)
       (fills : Option (List Fill))
       (characters : Option String)
       (style : Option TextStyle)
       (children : List DocumentNode)
deriving Repr

def DocumentNode.id : DocumentNode → String
  | .mk i _ _ _ _ _ _ _ => i

def DocumentNode.name : DocumentNode → String
  | .mk _ n _ _ _ _ _ _ => n

def DocumentNode.type : DocumentNode → String
  | .mk _ _ t _ _ _ _ _ => t

def DocumentNode.absoluteBoundingBox : DocumentNode → Option BoundingBox
  | .mk _ _ _ b _ _ _ _ => b

def DocumentNode.fills : DocumentNode → Option (List Fill)
  | .mk _ _ _ _ f _ _ _ => f

def DocumentNode.characters : DocumentNode → Option String
  | .mk _ _ _ _ _ c _ _ => c

def DocumentNode.style : DocumentNode → Option TextStyle
  | .mk _ _ _ _ _ _ s _ => s

def DocumentNode.children : DocumentNode → List DocumentNode
  | .mk _ _ _ _ _ _ _ cs => cs

/-- Whether the node carries a bounding box (`node.absoluteBoundingBox`
is truthy in the source: any object is truthy). -/
def DocumentNode.hasBox (n : DocumentNode) : Bool :=
  n.absoluteBoundingBox.isSome

mutual

/-- `collectNodesWithBBox(node, arr)` from `App.js`: push the node onto
the accumulator if it carries a bounding box, then recurse into the
children in their stored order. -/
def collectNodesWithBBox : DocumentNode → List DocumentNode → List DocumentNode
  | n@(.mk _ _ _ bb _ _ _ cs), arr =>
    collectListBBox cs (if bb.isSome then arr ++ [n] else arr)

/-- The `children.forEach` loop of `collectNodesWithBBox`. -/
def collectListBBox : List DocumentNode → List DocumentNode → List DocumentNode
  | [], arr => arr
  | c :: cs, arr => collectListBBox cs (collectNodesWithBBox c arr)

end

mutual

/-- Pre-order, depth-first listing of every node of the tree (the
reference traversal order against which the collector is compared). -/
def preorder : DocumentNode → List DocumentNode
  | n@(.mk _ _ _ _ _ _ _ cs) => n :: preorderList cs

/-- Pre-order listing of a forest, left to right. -/
def preorderList : List DocumentNode → List DocumentNode
  | [] => []
  | c :: cs => preorder c ++ preorderList cs

end

/-! ### JavaScript value helpers -/

/-- JavaScript `Math.round`: round half up, `⌊q + 1/2⌋`. -/
def jsRound (q : ℚ) : ℤ := ⌊q + 1 / 2⌋

/-- JavaScript `v || d` where `v` is a possibly-absent number: absent
(`undefined`) and `0` are falsy and yield the default. -/
def jsOrNum (o : Option ℚ) (d : ℚ) : ℚ :=
  match o with
  | some v => if v = 0 then d else v
  | none => d

/-- JavaScript `s || d` where `s` is a possibly-absent string: absent
and the empty string are falsy and yield the default. -/
def jsOrStr (o : Option String) (d : String) : String :=
  match o with
  | some s => if s = "" then d else s
  | none => d

/-- JavaScript `q || d` on an already-computed number. -/
def jsOrQ (q d : ℚ) : ℚ := if q = 0 then d else q

/-! ### Box field access as the source reads it -/

/-- `node.absoluteBoundingBox?.x || 0` (also `node.absoluteBoundingBox.x`
on a node known to carry a box: for a present box both reads agree,
since a present `x` of `0` is sent to `0` by `|| 0` as well). -/
def boxX (n : DocumentNode) : ℚ :=
  (n.absoluteBoundingBox.map BoundingBox.x).getD 0

/-- `node.absoluteBoundingBox?.y || 0`. -/
def boxY (n : DocumentNode) : ℚ :=
  (n.absoluteBoundingBox.map BoundingBox.y).getD 0

/-- `node.absoluteBoundingBox?.width || 0`: absent box, absent width
and zero width all yield `0`. -/
def boxW (n : DocumentNode) : ℚ :=
  (n.absoluteBoundingBox.bind BoundingBox.width).getD 0

/-- `node.absoluteBoundingBox?.height || 0`. -/
def boxH (n : DocumentNode) : ℚ :=
  (n.absoluteBoundingBox.bind BoundingBox.height).getD 0

/-- `n.absoluteBoundingBox.x + (n.absoluteBoundingBox.width || 0)`,
the right edge used for `maxX`. -/
def boxXW (n : DocumentNode) : ℚ := boxX n + boxW n

/-- The bottom edge used for `maxY`. -/
def boxYH (n : DocumentNode) : ℚ := boxY n + boxH n

/-! ### Envelope data -/

/-- A point of the document plane (the envelope offset). -/
structure Point where
  x : ℚ
  y : ℚ
deriving Repr, DecidableEq

/-- The `{ offset, scale, viewWidth, viewHeight }` record computed by
the `App` `useMemo`. -/
structure Envelope where
  offset : Point
  scale : ℚ
  viewWidth : ℚ
  viewHeight : ℚ
deriving Repr, DecidableEq

/-! ### Style resolution (`FigmaNode`, lines 20-22 and 36-37) -/

/-- A resolved CSS background: `'transparent'` or an `rgba(...)` value
with integer `0..255` channels and the alpha passed through. -/
inductive CssColor : Type where
  | transparent
  | rgba (r g b : ℤ) (a : ℚ)
deriving Repr, DecidableEq

/-- The background resolution of the RECTANGLE branch:
`fills && fills[0] && fills[0].type === 'SOLID' ? rgba(round(r*255),
round(g*255), round(b*255), a) : 'transparent'`.  The `color` object of
the first fill is read without a guard, so a SOLID first fill without
color data throws a `TypeError`, modelled as `none`. -/
def resolveFill : Option (List Fill) → Option CssColor
  | some (f :: _) =>
    if f.type = "SOLID" then
      match f.color with
      | some c =>
        some (.rgba (jsRound (c.r * 255)) (jsRound (c.g * 255))
          (jsRound (c.b * 255)) c.a)
      | none => none
    else
      some .transparent
  | _ => some .transparent

/-- The text-style fallbacks of the TEXT branch, gathered in one
function as in the spec's interface: `fontFamily = node.style?.fontFamily
|| 'sans-serif'` and `fontSize = node.style?.fontSize || 16` (the
JavaScript `||`, so a present `0` font size is also replaced). -/
def resolveTextStyle (style : Option TextStyle) : String × ℚ :=
  (jsOrStr (style.bind TextStyle.fontFamily) "sans-serif",
   jsOrNum (style.bind TextStyle.fontSize) 16)

/-! ### The projector (`FigmaNode`) -/

/-- A positioned visual primitive emitted by the projection: the
absolutely positioned `div` of the RECTANGLE branch or of the TEXT
branch, carrying screen-space coordinates. -/
inductive VisualPrimitive : Type where
  | rect (x y w h : ℚ) (color : CssColor)
  | textBlock (x y w h : ℚ) (color : String) (fontSize : ℚ)
      (fontFamily : String) (text : String)
deriving Repr, DecidableEq

/-- Screen x of a primitive. -/
def VisualPrimitive.screenX : VisualPrimitive → ℚ
  | .rect x _ _ _ _ => x
  | .textBlock x _ _ _ _ _ _ _ => x

/-- Screen y of a primitive. -/
def VisualPrimitive.screenY : VisualPrimitive → ℚ
  | .rect _ y _ _ _ => y
  | .textBlock _ y _ _ _ _ _ _ => y

mutual

/-- The `FigmaNode` component as a pure function: dispatch on
`node.type`.  `'RECTANGLE'` renders one absolutely positioned `div`
(children never traversed); `'TEXT'` renders one text `div` (children
never traversed); any other type renders nothing of its own and maps
`FigmaNode` over `node.children` (nothing at all when there are none).
`none` models a thrown `TypeError` from the fill resolution. -/
def projectNode : DocumentNode → Point → ℚ → Option (List VisualPrimitive)
  | n@(.mk _ _ t _ fills chars st cs), offset, scale =>
    if t = "RECTANGLE" then
      match resolveFill fills with
      | some col =>
        some [.rect ((boxX n - offset.x) * scale) ((boxY n - offset.y) * scale)
          (boxW n * scale) (boxH n * scale) col]
      | none => none
    else if t = "TEXT" then
      some [.textBlock ((boxX n - offset.x) * scale) ((boxY n - offset.y) * scale)
        (boxW n * scale) (boxH n * scale) "#222"
        ((resolveTextStyle st).2 * scale) (resolveTextStyle st).1
        (chars.getD "")]
    else
      projectList cs offset scale

/-- `children.map(child => FigmaNode(child, offset, scale))`, results
concatenated; an exception in any child aborts the whole render. -/
def projectList : List DocumentNode → Point → ℚ → Option (List VisualPrimitive)
  | [], _, _ => some []
  | c :: cs, offset, scale =>
    match projectNode c offset scale, projectList cs offset scale with
    | some a, some b => some (a ++ b)
    | _, _ => none

end

/-- `project(root, envelope)` of the spec's interface: run the
projection with the envelope's offset and scale. -/
def project (root : DocumentNode) (e : Envelope) : Option (List VisualPrimitive) :=
  projectNode root e.offset e.scale

/-! ### Envelope computation (`App` `useMemo`, lines 92-119) -/

/-- `Math.min(...nodes.map(n => n.absoluteBoundingBox.x))` over a
non-empty collected list (the `[]` case is unreachable: the caller has
already returned the degenerate envelope). -/
def envMinX : List DocumentNode → ℚ
  | [] => 0
  | n :: ns => (ns.map boxX).foldl min (boxX n)

/-- `Math.min(...nodes.map(n => n.absoluteBoundingBox.y))`. -/
def envMinY : List DocumentNode → ℚ
  | [] => 0
  | n :: ns => (ns.map boxY).foldl min (boxY n)

/-- `Math.max(...nodes.map(n => n.absoluteBoundingBox.x +
(n.absoluteBoundingBox.width || 0)))`. -/
def envMaxX : List DocumentNode → ℚ
  | [] => 0
  | n :: ns => (ns.map boxXW).foldl max (boxXW n)

/-- `Math.max(...)` over bottom edges. -/
def envMaxY : List DocumentNode → ℚ
  | [] => 0
  | n :: ns => (ns.map boxYH).foldl max (boxYH n)

/-- `pageWidth = (maxX - minX) || 1` and
`pageHeight = (maxY - minY) || 1` of the source: the JavaScript `||`
replaces only a falsy (zero) extent by `1`. -/
def pageDims (nodes : List DocumentNode) : ℚ × ℚ :=
  (jsOrQ (envMaxX nodes - envMinX nodes) 1,
   jsOrQ (envMaxY nodes - envMinY nodes) 1)

/-- The scale branch of the source: `newScale = 1` unless
`pageWidth > targetViewWidth || pageHeight > targetViewHeight`, in
which case `Math.min(targetViewWidth / pageWidth, targetViewHeight /
pageHeight)`. -/
def envScale (pw ph viewportW viewportH : ℚ) : ℚ :=
  if pw > viewportW ∨ ph > viewportH then
    min (viewportW / pw) (viewportH / ph)
  else 1

/-- The envelope `useMemo` of `App`, with the fixed
`targetViewWidth = 900` / `targetViewHeight = 600` constants lifted to
parameters as in the spec's `computeEnvelope(root, viewportW,
viewportH)` interface.  An empty collected set returns offset `(0,0)`,
scale `1` and the viewport unchanged; otherwise offset is the
componentwise minimum and the scale follows `envScale`. -/
def computeEnvelope (root : DocumentNode) (viewportW viewportH : ℚ) : Envelope :=
  match collectNodesWithBBox root [] with
  | [] => ⟨⟨0, 0⟩, 1, viewportW, viewportH⟩
  | n :: ns =>
    let nodes := n :: ns
    let pw := (pageDims nodes).1
    let ph := (pageDims nodes).2
    ⟨⟨envMinX nodes, envMinY nodes⟩, envScale pw ph viewportW viewportH,
      viewportW, viewportH⟩

/-- `targetViewWidth` of the source. -/
def targetViewWidth : ℚ := 900

/-- `targetViewHeight` of the source. -/
def targetViewHeight : ℚ := 600

/-- The envelope exactly as `App` computes it, with the source's fixed
900×600 viewport. -/
def computeEnvelopeApp (root : DocumentNode) : Envelope :=
  computeEnvelope root targetViewWidth targetViewHeight

/-! ### Sample documents used in concrete instances -/

/-- A plain rectangle with box `{x:10, y:20, w:100, h:50}` and no
fills. -/
def rectNode : DocumentNode :=
  .mk "r1" "rect" "RECTANGLE" (some ⟨10, 20, some 100, some 50⟩) none none none []

/-- A rectangle whose first fill is SOLID but carries no color data:
rendering it throws a `TypeError` in the source. -/
def badFillRect : DocumentNode :=
  .mk "r2" "badRect" "RECTANGLE" (some ⟨0, 0, some 10, some 10⟩)
    (some [⟨"SOLID", none⟩]) none none []

/-- A frame containing a rectangle like `badFillRect`: the child's
`TypeError` aborts the whole projection. -/
def badFrame : DocumentNode :=
  .mk "f1" "badFrame" "FRAME" none none none none
    [.mk "r3" "badRect2" "RECTANGLE" (some ⟨5, 5, some 10, some 10⟩)
      (some [⟨"SOLID", none⟩]) none none []]

/-- A single boxed node of extent `1/2 × 1/2`: its page extent is a
fractional positive number below `1`. -/
def tinyNode : DocumentNode :=
  .mk "t1" "tiny" "RECTANGLE" (some ⟨0, 0, some (1 / 2), some (1 / 2)⟩)
    none none none []

/-- A small tree: an unboxed canvas holding a boxed rectangle and an
unboxed group holding a boxed text node. -/
def sampleTree : DocumentNode :=
  .mk "p1" "page" "CANVAS" none none none none
    [rectNode,
     .mk "g1" "group" "GROUP" none none none none
       [.mk "x1" "label" "TEXT" (some ⟨30, 40, some 60, some 12⟩) none
         (some "hello") (some ⟨some 14, some "Inter"⟩) []]]

/-- A tree with no boxed node anywhere. -/
def boxlessTree : DocumentNode :=
  .mk "p2" "empty" "CANVAS" none none none none
    [.mk "g2" "group" "GROUP" none none none none []]

/-! ### Helper lemmas: the collector is the pre-order filter -/

mutual

theorem collect_eq_filter : ∀ (n : DocumentNode) (arr : List DocumentNode),
    collectNodesWithBBox n arr = arr ++ (preorder n).filter DocumentNode.hasBox
  | .mk i nm t bb f ch st cs, arr => by
    rw [collectNodesWithBBox, preorder, collectList_eq_filter cs]
    by_cases h : bb.isSome
    · simp [h, List.filter_cons, DocumentNode.hasBox, DocumentNode.absoluteBoundingBox]
    · simp [h, List.filter_cons, DocumentNode.hasBox, DocumentNode.absoluteBoundingBox]

theorem collectList_eq_filter : ∀ (l : List DocumentNode) (arr : List DocumentNode),
    collectListBBox l arr = arr ++ (preorderList l).filter DocumentNode.hasBox
  | [], arr => by simp [collectListBBox, preorderList]
  | c :: cs, arr => by
    rw [collectListBBox, preorderList, collect_eq_filter c, collectList_eq_filter cs]
    simp [List.filter_append]

end

theorem mem_collect_iff (root m : DocumentNode) :
    m ∈ collectNodesWithBBox root [] ↔ m ∈ preorder root ∧ m.hasBox := by
  rw [collect_eq_filter]
  simp [List.mem_filter]

theorem self_mem_preorder (n : DocumentNode) : n ∈ preorder n := by
  cases n with
  | mk i nm t bb f ch st cs => rw [preorder]; exact List.mem_cons_self _ _

/-! ### Helper lemmas: folded minima and maxima -/

theorem foldl_min_le_init (l : List ℚ) (a : ℚ) : l.foldl min a ≤ a := by
  induction l generalizing a with
  | nil => simp
  | cons x xs ih =>
    calc (x :: xs).foldl min a = xs.foldl min (min a x) := rfl
      _ ≤ min a x := ih _
      _ ≤ a := min_le_left _ _

theorem foldl_min_le_mem {l : List ℚ} {b : ℚ} (hb : b ∈ l) (a : ℚ) :
    l.foldl min a ≤ b := by
  induction l generalizing a with
  | nil => cases hb
  | cons x xs ih =>
    rcases List.mem_cons.mp hb with rfl | hmem
    · calc (b :: xs).foldl min a = xs.foldl min (min a b) := rfl
        _ ≤ min a b := foldl_min_le_init _ _
        _ ≤ b := min_le_right _ _
    · exact ih hmem _

theorem init_le_foldl_max (l : List ℚ) (a : ℚ) : a ≤ l.foldl max a := by
  induction l generalizing a with
  | nil => simp
  | cons x xs ih =>
    calc a ≤ max a x := le_max_left _ _
      _ ≤ xs.foldl max (max a x) := ih _
      _ = (x :: xs).foldl max a := rfl

theorem mem_le_foldl_max {l : List ℚ} {b : ℚ} (hb : b ∈ l) (a : ℚ) :
    b ≤ l.foldl max a := by
  induction l generalizing a with
  | nil => cases hb
  | cons x xs ih =>
    rcases List.mem_cons.mp hb with rfl | hmem
    · calc b ≤ max a b := le_max_right _ _
        _ ≤ xs.foldl max (max a b) := init_le_foldl_max _ _
        _ = (b :: xs).foldl max a := rfl
    · exact ih hmem _

/-! ### Helper lemmas: envelope aggregates -/

theorem envMinX_le {nodes : List DocumentNode} {m : DocumentNode}
    (hm : m ∈ nodes) : envMinX nodes ≤ boxX m := by
  cases nodes with
  | nil => cases hm
  | cons n ns =>
    rw [envMinX]
    rcases List.mem_cons.mp hm with rfl | hmem
    · exact foldl_min_le_init _ _
    · exact foldl_min_le_mem (List.mem_map_of_mem boxX hmem) _

theorem envMinY_le {nodes : List DocumentNode} {m : DocumentNode}
    (hm : m ∈ nodes) : envMinY nodes ≤ boxY m := by
  cases nodes with
  | nil => cases hm
  | cons n ns =>
    rw [envMinY]
    rcases List.mem_cons.mp hm with rfl | hmem
    · exact foldl_min_le_init _ _
    · exact foldl_min_le_mem (List.mem_map_of_mem boxY hmem) _

theorem le_envMaxX {nodes : List DocumentNode} {m : DocumentNode}
    (hm : m ∈ nodes) : boxXW m ≤ envMaxX nodes := by
  cases nodes with
  | nil => cases hm
  | cons n ns =>
    rw [envMaxX]
    rcases List.mem_cons.mp hm with rfl | hmem
    · exact init_le_foldl_max _ _
    · exact mem_le_foldl_max (List.mem_map_of_mem boxXW hmem) _

theorem le_envMaxY {nodes : List DocumentNode} {m : DocumentNode}
    (hm : m ∈ nodes) : boxYH m ≤ envMaxY nodes := by
  cases nodes with
  | nil => cases hm
  | cons n ns =>
    rw [envMaxY]
    rcases List.mem_cons.mp hm with rfl | hmem
    · exact init_le_foldl_max _ _
    · exact mem_le_foldl_max (List.mem_map_of_mem boxYH hmem) _

/-- With non-negative widths, the horizontal extent of a non-empty
node list is non-negative. -/
theorem envMinX_le_envMaxX {nodes : List DocumentNode}
    (hne : nodes ≠ []) (hw : ∀ m ∈ nodes, 0 ≤ boxW m) :
    envMinX nodes ≤ envMaxX nodes := by
  cases nodes with
  | nil => exact absurd rfl hne
  | cons n ns =>
    have h1 : envMinX (n :: ns) ≤ boxX n := envMinX_le (List.mem_cons_self _ _)
    have h2 : boxXW n ≤ envMaxX (n :: ns) := le_envMaxX (List.mem_cons_self _ _)
    have h3 : boxX n ≤ boxXW n := by
      have := hw n (List.mem_cons_self _ _)
      unfold boxXW; linarith
    linarith

theorem envMinY_le_envMaxY {nodes : List DocumentNode}
    (hne : nodes ≠ []) (hh : ∀ m ∈ nodes, 0 ≤ boxH m) :
    envMinY nodes ≤ envMaxY nodes := by
  cases nodes with
  | nil => exact absurd rfl hne
  | cons n ns =>
    have h1 : envMinY (n :: ns) ≤ boxY n := envMinY_le (List.mem_cons_self _ _)
    have h2 : boxYH n ≤ envMaxY (n :: ns) := le_envMaxY (List.mem_cons_self _ _)
    have h3 : boxY n ≤ boxYH n := by
      have := hh n (List.mem_cons_self _ _)
      unfold boxYH; linarith
    linarith

/-- A non-negative quantity put through the JavaScript `|| 1` fallback
is strictly positive. -/
theorem jsOrQ_pos {q : ℚ} (hq : 0 ≤ q) : 0 < jsOrQ q 1 := by
  unfold jsOrQ
  split
  · norm_num
  · rename_i h
    exact lt_of_le_of_ne hq (Ne.symm h)

/-! ### Helper lemmas: projector dispatch equations -/

theorem projectNode_rect_eq {n : DocumentNode} (o : Point) (s : ℚ)
    (ht : n.type = "RECTANGLE") :
    projectNode n o s = (resolveFill n.fills).map (fun col =>
      [.rect ((boxX n - o.x) * s) ((boxY n - o.y) * s) (boxW n * s)
        (boxH n * s) col]) := by
  cases n with
  | mk i nm t bb f ch st cs =>
    rw [DocumentNode.type] at ht
    subst ht
    rw [projectNode]
    simp [DocumentNode.fills]
    cases resolveFill f <;> simp

theorem projectNode_text_eq {n : DocumentNode} (o : Point) (s : ℚ)
    (ht : n.type = "TEXT") :
    projectNode n o s = some [.textBlock ((boxX n - o.x) * s)
      ((boxY n - o.y) * s) (boxW n * s) (boxH n * s) "#222"
      ((resolveTextStyle n.style).2 * s) (resolveTextStyle n.style).1
      (n.characters.getD "")] := by
  cases n with
  | mk i nm t bb f ch st cs =>
    rw [DocumentNode.type] at ht
    subst ht
    rw [projectNode]
    simp [DocumentNode.style, DocumentNode.characters]

theorem projectNode_other_eq {n : DocumentNode} (o : Point) (s : ℚ)
    (ht1 : n.type ≠ "RECTANGLE") (ht2 : n.type ≠ "TEXT") :
    projectNode n o s = projectList n.children o s := by
  cases n with
  | mk i nm t bb f ch st cs =>
    rw [DocumentNode.type] at ht1 ht2
    rw [projectNode, DocumentNode.children]
    simp [ht1, ht2]

mutual

theorem projectNode_total_aux : ∀ (n : DocumentNode) (o : Point) (s : ℚ),
    (∀ m ∈ preorder n, m.type = "RECTANGLE" → (resolveFill m.fills).isSome) →
    (projectNode n o s).isSome
  | .mk i nm t bb f ch st cs, o, s, h => by
    by_cases ht : t = "RECTANGLE"
    · have hn : (DocumentNode.mk i nm t bb f ch st cs).type = "RECTANGLE" := by
        rw [DocumentNode.type]; exact ht
      rw [projectNode_rect_eq o s hn]
      have := h _ (self_mem_preorder _) hn
      cases hh : resolveFill (DocumentNode.mk i nm t bb f ch st cs).fills with
      | none => rw [hh] at this; simp at this
      | some col => simp
    · by_cases ht2 : t = "TEXT"
      · have hn : (DocumentNode.mk i nm t bb f ch st cs).type = "TEXT" := by
          rw [DocumentNode.type]; exact ht2
        rw [projectNode_text_eq o s hn]
        simp
      · have hn1 : (DocumentNode.mk i nm t bb f ch st cs).type ≠ "RECTANGLE" := by
          rw [DocumentNode.type]; exact ht
        have hn2 : (DocumentNode.mk i nm t bb f ch st cs).type ≠ "TEXT" := by
          rw [DocumentNode.type]; exact ht2
        rw [projectNode_other_eq o s hn1 hn2, DocumentNode.children]
        refine projectList_total_aux cs o s ?_
        intro m hm hmr
        refine h m ?_ hmr
        rw [preorder]
        exact List.mem_cons_of_mem _ hm

theorem projectList_total_aux : ∀ (l : List DocumentNode) (o : Point) (s : ℚ),
    (∀ m ∈ preorderList l, m.type = "RECTANGLE" → (resolveFill m.fills).isSome) →
    (projectList l o s).isSome
  | [], _, _, _ => by rw [projectList]; simp
  | c :: cs, o, s, h => by
    rw [projectList]
    have h1 : (projectNode c o s).isSome := by
      refine projectNode_total_aux c o s ?_
      intro m hm hmr
      refine h m ?_ hmr
      rw [preorderList]
      exact List.mem_append_left _ hm
    have h2 : (projectList cs o s).isSome := by
      refine projectList_total_aux cs o s ?_
      intro m hm hmr
      refine h m ?_ hmr
      rw [preorderList]
      exact List.mem_append_right _ hm
    cases hc : projectNode c o s with
    | none => rw [hc] at h1; simp at h1
    | some a =>
      cases hcs : projectList cs o s with
      | none => rw [hcs] at h2; simp at h2
      | some b => simp

end

/-! ### Helper lemmas: envelope on a non-empty collected set -/

theorem computeEnvelope_scale_eq {root n : DocumentNode} {ns : List DocumentNode}
    (viewportW viewportH : ℚ)
    (hcol : collectNodesWithBBox root [] = n :: ns) :
    (computeEnvelope root viewportW viewportH).scale =
      envScale (pageDims (n :: ns)).1 (pageDims (n :: ns)).2 viewportW viewportH := by
  simp [computeEnvelope, hcol, pageDims]

theorem computeEnvelope_offset_eq {root n : DocumentNode} {ns : List DocumentNode}
    (viewportW viewportH : ℚ)
    (hcol : collectNodesWithBBox root [] = n :: ns) :
    (computeEnvelope root viewportW viewportH).offset =
      ⟨envMinX (n :: ns), envMinY (n :: ns)⟩ := by
  simp [computeEnvelope, hcol]

theorem pageDims_pos {root n : DocumentNode} {ns : List DocumentNode}
    (hcol : collectNodesWithBBox root [] = n :: ns)
    (hwh : ∀ m ∈ preorder root, 0 ≤ boxW m ∧ 0 ≤ boxH m) :
    0 < (pageDims (n :: ns)).1 ∧ 0 < (pageDims (n :: ns)).2 := by
  have hmem : ∀ m ∈ (n :: ns), m ∈ preorder root := by
    intro m hm
    rw [← hcol] at hm
    exact ((mem_collect_iff root m).mp hm).1
  have hxx : envMinX (n :: ns) ≤ envMaxX (n :: ns) :=
    envMinX_le_envMaxX (by simp) (fun m hm => (hwh m (hmem m hm)).1)
  have hyy : envMinY (n :: ns) ≤ envMaxY (n :: ns) :=
    envMinY_le_envMaxY (by simp) (fun m hm => (hwh m (hmem m hm)).2)
  constructor
  · simpa [pageDims] using jsOrQ_pos (sub_nonneg.mpr hxx)
  · simpa [pageDims] using jsOrQ_pos (sub_nonneg.mpr hyy)

theorem envScale_le_one {pw ph vW vH : ℚ} (hpw : 0 < pw) (hph : 0 < ph) :
    envScale pw ph vW vH ≤ 1 := by
  unfold envScale
  split
  · rename_i hgt
    rcases hgt with h1 | h2
    · calc min (vW / pw) (vH / ph) ≤ vW / pw := min_le_left _ _
        _ ≤ 1 := by rw [div_le_one hpw]; linarith
    · calc min (vW / pw) (vH / ph) ≤ vH / ph := min_le_right _ _
        _ ≤ 1 := by rw [div_le_one hph]; linarith
  · exact le_refl 1

theorem envScale_pos {pw ph vW vH : ℚ} (hpw : 0 < pw) (hph : 0 < ph)
    (hvw : 0 < vW) (hvh : 0 < vH) : 0 < envScale pw ph vW vH := by
  unfold envScale
  split
  · exact lt_min (div_pos hvw hpw) (div_pos hvh hph)
  · norm_num

/-! ### Claim theorems -/

/-- C2: `collectNodesWithBBox` returns exactly the nodes carrying a
bounding box, in pre-order depth-first order with children visited in
their stored order (it equals the pre-order listing filtered by box
presence, so every reachable node is considered exactly once), and the
result is empty iff no node of the tree, the root included, carries a
box. -/
theorem claim_C2_collectBoxed (root : DocumentNode) :
    collectNodesWithBBox root [] = (preorder root).filter DocumentNode.hasBox ∧
    (collectNodesWithBBox root [] = [] ↔
      ∀ m ∈ preorder root, m.absoluteBoundingBox = none) := by
  constructor
  · simpa using collect_eq_filter root []
  · rw [collect_eq_filter root []]
    simp only [List.nil_append, List.filter_eq_nil_iff, DocumentNode.hasBox]
    constructor
    · intro h m hm
      have := h m hm
      simpa [Option.isSome_iff_ne_none] using this
    · intro h m hm
      simp [h m hm]

/-- C2 witness: the collector evaluated on a concrete tree through the
theorem. -/
theorem claim_C2_witness :
    collectNodesWithBBox sampleTree [] =
      (preorder sampleTree).filter DocumentNode.hasBox :=
  (claim_C2_collectBoxed sampleTree).1

/-- C9: for every viewport and every root with no boxed node anywhere,
`computeEnvelope` returns offset `(0,0)`, scale `1` and the viewport
dimensions unchanged, as a defined result. -/
theorem claim_C9_envelope_empty (root : DocumentNode) (viewportW viewportH : ℚ)
    (h : ∀ m ∈ preorder root, m.absoluteBoundingBox = none) :
    computeEnvelope root viewportW viewportH =
      ⟨⟨0, 0⟩, 1, viewportW, viewportH⟩ := by
  have hcol : collectNodesWithBBox root [] = [] := by
    rw [collect_eq_filter root []]
    simp only [List.nil_append, List.filter_eq_nil_iff, DocumentNode.hasBox]
    intro m hm
    simp [h m hm]
  simp only [computeEnvelope, hcol]

/-- C9 witness: the degenerate envelope of a concrete boxless tree. -/
theorem claim_C9_witness :
    computeEnvelope boxlessTree 900 600 = ⟨⟨0, 0⟩, 1, 900, 600⟩ :=
  claim_C9_envelope_empty boxlessTree 900 600 (by decide)

/-- C6 counterexample: the claim says a SOLID first fill whose color
channel data is missing resolves to Transparent; in the code the
unguarded `fills[0].color.r` access throws a `TypeError` (modelled as
`none`), so the result is not Transparent. -/
theorem claim_C6_counterexample :
    resolveFill (some [Fill.mk "SOLID" none]) = none ∧
    resolveFill (some [Fill.mk "SOLID" none]) ≠ some CssColor.transparent := by
  constructor
  · rfl
  · decide

/-- C6 as amended: `resolveFill` returns Transparent when the fill
list is absent or empty or when its first entry is not SOLID; a SOLID
first entry with color data present resolves to RGBA with the `[0,1]`
channels scaled to `[0,255]` by rounding and the alpha passed through
unscaled; but a SOLID first entry with missing color data raises a
`TypeError` (returns `none`) instead of Transparent.  In particular
`[{type:'SOLID', color:{r:1,g:0,b:0,a:0.5}}]` resolves to
`(255,0,0,0.5)`. -/
theorem claim_C6_amended :
    resolveFill none = some CssColor.transparent ∧
    resolveFill (some []) = some CssColor.transparent ∧
    (∀ (f : Fill) (fs : List Fill), f.type ≠ "SOLID" →
      resolveFill (some (f :: fs)) = some CssColor.transparent) ∧
    (∀ (c : FigmaColor) (fs : List Fill),
      resolveFill (some (Fill.mk "SOLID" (some c) :: fs)) =
        some (.rgba (jsRound (c.r * 255)) (jsRound (c.g * 255))
          (jsRound (c.b * 255)) c.a)) ∧
    (∀ fs : List Fill, resolveFill (some (Fill.mk "SOLID" none :: fs)) = none) ∧
    resolveFill (some [Fill.mk "SOLID" (some ⟨1, 0, 0, 1 / 2⟩)]) =
      some (.rgba 255 0 0 (1 / 2)) := by
  refine ⟨rfl, rfl, ?_, ?_, ?_, ?_⟩
  · intro f fs hf
    simp [resolveFill, hf]
  · intro c fs
    simp [resolveFill]
  · intro fs
    simp [resolveFill]
  · simp [resolveFill, jsRound]
    norm_num

/-- C6 witness: a non-SOLID first fill resolves to Transparent,
through the amended theorem. -/
theorem claim_C6_witness :
    (Fill.mk "IMAGE" none).type ≠ "SOLID" ∧
    resolveFill (some [Fill.mk "IMAGE" none]) = some CssColor.transparent :=
  ⟨by decide, claim_C6_amended.2.2.1 (Fill.mk "IMAGE" none) [] (by decide)⟩

/-- C8 counterexample: the claim says a present `fontSize` passes
through unchanged, including the value zero; in the code the `||`
fallback also replaces a present zero by the default `16`. -/
theorem claim_C8_counterexample :
    (resolveTextStyle (some ⟨some 0, none⟩)).2 = 16 ∧
    (resolveTextStyle (some ⟨some 0, none⟩)).2 ≠ 0 := by
  constructor
  · rfl
  · decide

/-- C8 as amended: `resolveTextStyle` returns fontFamily
`"sans-serif"` and fontSize `16` when the style or the respective
sub-field is absent, passes a present non-zero fontSize through
unchanged (negative values included), but replaces a present zero
fontSize by the default `16` (the JavaScript `||` treats `0` as
falsy). -/
theorem claim_C8_amended :
    resolveTextStyle none = ("sans-serif", 16) ∧
    (∀ ff, (resolveTextStyle (some ⟨none, ff⟩)).2 = 16) ∧
    (∀ (v : ℚ) ff, v ≠ 0 → (resolveTextStyle (some ⟨some v, ff⟩)).2 = v) ∧
    (∀ ff, (resolveTextStyle (some ⟨some 0, ff⟩)).2 = 16) ∧
    (∀ fs, (resolveTextStyle (some ⟨fs, none⟩)).1 = "sans-serif") := by
  refine ⟨rfl, ?_, ?_, ?_, ?_⟩
  · intro ff
    simp [resolveTextStyle, jsOrNum]
  · intro v ff hv
    simp [resolveTextStyle, jsOrNum, hv]
  · intro ff
    simp [resolveTextStyle, jsOrNum]
  · intro fs
    simp [resolveTextStyle, jsOrStr]

/-- C8 witness: a negative fontSize passes through unchanged, through
the amended theorem. -/
theorem claim_C8_witness :
    (-3 : ℚ) ≠ 0 ∧ (resolveTextStyle (some ⟨some (-3), none⟩)).2 = -3 :=
  ⟨by norm_num, claim_C8_amended.2.2.1 (-3) none (by norm_num)⟩

/-- C7 counterexample: a single boxed node of extent `1/2` yields
`pageWidth = 1/2` in the code (the JavaScript `|| 1` only replaces a
zero extent), while the claimed `max(maxX - minX, 1)` would give `1`:
a fractional positive extent below `1` is not floored to `1`. -/
theorem claim_C7_counterexample :
    (pageDims (collectNodesWithBBox tinyNode [])).1 = 1 / 2 ∧
    max (envMaxX (collectNodesWithBBox tinyNode []) -
      envMinX (collectNodesWithBBox tinyNode [])) 1 = 1 := by
  constructor
  · simp [pageDims, jsOrQ, envMaxX, envMinX, tinyNode, collectNodesWithBBox,
      collectListBBox, boxXW, boxX, boxW, DocumentNode.absoluteBoundingBox]
  · simp [envMaxX, envMinX, tinyNode, collectNodesWithBBox,
      collectListBBox, boxXW, boxX, boxW, DocumentNode.absoluteBoundingBox]
    norm_num

/-- C7 as amended: the envelope computation derives
`pageWidth = (maxX - minX) || 1` and `pageHeight = (maxY - minY) || 1`
with the JavaScript `||`: only an extent equal to exactly `0` is
replaced by `1`; any non-zero extent, fractional positive extents
below `1` included, passes through unchanged. -/
theorem claim_C7_amended (nodes : List DocumentNode) :
    ((envMaxX nodes - envMinX nodes = 0 → (pageDims nodes).1 = 1) ∧
     (envMaxX nodes - envMinX nodes ≠ 0 →
       (pageDims nodes).1 = envMaxX nodes - envMinX nodes)) ∧
    ((envMaxY nodes - envMinY nodes = 0 → (pageDims nodes).2 = 1) ∧
     (envMaxY nodes - envMinY nodes ≠ 0 →
       (pageDims nodes).2 = envMaxY nodes - envMinY nodes)) := by
  refine ⟨⟨?_, ?_⟩, ⟨?_, ?_⟩⟩ <;> intro h <;> simp [pageDims, jsOrQ, h]

/-- C7 witness: the amended behavior on a concrete single zero-size
node (zero extent floored to `1`). -/
theorem claim_C7_witness :
    envMaxX [boxlessTree] - envMinX [boxlessTree] = 0 ∧
    (pageDims [boxlessTree]).1 = 1 :=
  ⟨by simp [envMaxX, envMinX, boxXW, boxX, boxW, boxlessTree,
      DocumentNode.absoluteBoundingBox],
   (claim_C7_amended [boxlessTree]).1.1 (by
     simp [envMaxX, envMinX, boxXW, boxX, boxW, boxlessTree,
       DocumentNode.absoluteBoundingBox])⟩

/-- C3 counterexample: the claim says every Rectangle node emits
exactly one Rect primitive; a Rectangle whose first fill is SOLID
without color data instead throws (the projection returns `none`, not
a one-element primitive list). -/
theorem claim_C3_counterexample :
    badFillRect.type = "RECTANGLE" ∧
    projectNode badFillRect ⟨0, 0⟩ 1 = none := by
  constructor
  · rfl
  · rfl

/-- C3 as amended: `project` dispatches on the type tag.  A Rectangle
emits exactly one Rect primitive when its fill resolves (it throws
when the first fill is SOLID without color data), and its children are
never traversed — the output depends only on its own box and fills; a
Text node always emits exactly one TextBlock, children never
traversed; any other type tag emits no primitive of its own and yields
the concatenation, in stored child order, of its children's
projections, so an unknown-typed node behaves identically to a
Container with the same children. -/
theorem claim_C3_dispatch (n : DocumentNode) (o : Point) (s : ℚ) :
    (n.type = "RECTANGLE" →
      projectNode n o s = (resolveFill n.fills).map (fun col =>
        [.rect ((boxX n - o.x) * s) ((boxY n - o.y) * s) (boxW n * s)
          (boxH n * s) col])) ∧
    (n.type = "TEXT" →
      projectNode n o s = some [.textBlock ((boxX n - o.x) * s)
        ((boxY n - o.y) * s) (boxW n * s) (boxH n * s) "#222"
        ((resolveTextStyle n.style).2 * s) (resolveTextStyle n.style).1
        (n.characters.getD "")]) ∧
    (n.type ≠ "RECTANGLE" → n.type ≠ "TEXT" →
      projectNode n o s = projectList n.children o s) ∧
    (∀ n' : DocumentNode, n.type ≠ "RECTANGLE" → n.type ≠ "TEXT" →
      n'.type ≠ "RECTANGLE" → n'.type ≠ "TEXT" → n.children = n'.children →
      projectNode n o s = projectNode n' o s) := by
  refine ⟨fun ht => projectNode_rect_eq o s ht,
    fun ht => projectNode_text_eq o s ht,
    fun h1 h2 => projectNode_other_eq o s h1 h2, ?_⟩
  intro n' h1 h2 h1' h2' hch
  rw [projectNode_other_eq o s h1 h2, projectNode_other_eq o s h1' h2', hch]

/-- C3 witness: a container-typed node projects to the concatenation
of its children's projections, through the amended theorem. -/
theorem claim_C3_witness :
    sampleTree.type ≠ "RECTANGLE" ∧ sampleTree.type ≠ "TEXT" ∧
    projectNode sampleTree ⟨0, 0⟩ 1 = projectList sampleTree.children ⟨0, 0⟩ 1 :=
  ⟨by decide, by decide,
   (claim_C3_dispatch sampleTree ⟨0, 0⟩ 1).2.2.1 (by decide) (by decide)⟩

/-- C4: whenever the projection of a Rectangle node succeeds, the
emitted primitive list is exactly one Rect whose screen coordinates
are `(boxX - offset.x) * scale`, `(boxY - offset.y) * scale`,
`boxWidth * scale`, `boxHeight * scale`, with absent box fields read
as `0` by `boxX`/`boxY`/`boxW`/`boxH`; and in particular a Rectangle
with box `{x:10, y:20, w:100, h:50}` under offset `(0,0)` and scale
`1` yields one Rect at `(10, 20, 100, 50)`. -/
theorem claim_C4_rect_coords :
    (∀ (n : DocumentNode) (o : Point) (s : ℚ) (ps : List VisualPrimitive),
      n.type = "RECTANGLE" → projectNode n o s = some ps →
      ps = [.rect ((boxX n - o.x) * s) ((boxY n - o.y) * s) (boxW n * s)
        (boxH n * s) ((resolveFill n.fills).getD .transparent)]) ∧
    projectNode rectNode ⟨0, 0⟩ 1 =
      some [.rect 10 20 100 50 .transparent] := by
  constructor
  · intro n o s ps ht hp
    rw [projectNode_rect_eq o s ht] at hp
    cases hh : resolveFill n.fills with
    | none => rw [hh] at hp; simp at hp
    | some col =>
      rw [hh] at hp
      have hps : [VisualPrimitive.rect ((boxX n - o.x) * s) ((boxY n - o.y) * s)
          (boxW n * s) (boxH n * s) col] = ps := by simpa using hp
      rw [← hps]
      rfl
  · simp [projectNode, rectNode, resolveFill, boxX, boxY, boxW, boxH,
      DocumentNode.absoluteBoundingBox]

/-- C4 witness: the general formula instantiated on the concrete
rectangle, hypotheses discharged there. -/
theorem claim_C4_witness :
    rectNode.type = "RECTANGLE" ∧
    [VisualPrimitive.rect 10 20 100 50 .transparent] =
      [VisualPrimitive.rect ((boxX rectNode - (Point.mk 0 0).x) * 1)
        ((boxY rectNode - (Point.mk 0 0).y) * 1) (boxW rectNode * 1)
        (boxH rectNode * 1) ((resolveFill rectNode.fills).getD .transparent)] :=
  ⟨rfl, claim_C4_rect_coords.1 rectNode ⟨0, 0⟩ 1 _ rfl claim_C4_rect_coords.2⟩

/-- C5 counterexample: the claim says the projector raises no error
for any node shape; a frame containing a rectangle whose first fill is
SOLID without color data makes the whole projection throw (`none`). -/
theorem claim_C5_counterexample : projectNode badFrame ⟨0, 0⟩ 1 = none := rfl

/-- C5 as amended: the projector is total on every node shape except
those containing a RECTANGLE node whose fill resolution throws (first
fill SOLID with missing color data): whenever every RECTANGLE node of
the tree has a resolvable fill list — which covers absent boxes,
absent fills, fill entries of other variants, unknown types, and empty
or absent children — `project` returns a defined output. -/
theorem claim_C5_total (n : DocumentNode) (o : Point) (s : ℚ)
    (h : ∀ m ∈ preorder n, m.type = "RECTANGLE" → (resolveFill m.fills).isSome) :
    (projectNode n o s).isSome :=
  projectNode_total_aux n o s h

/-- C5 witness: totality on a concrete tree with missing boxes,
missing fills, unknown types and empty children. -/
theorem claim_C5_witness :
    (∀ m ∈ preorder sampleTree, m.type = "RECTANGLE" →
      (resolveFill m.fills).isSome) ∧
    (projectNode sampleTree ⟨0, 0⟩ 1).isSome :=
  ⟨by decide, claim_C5_total sampleTree ⟨0, 0⟩ 1 (by decide)⟩

/-- C1: for every tree whose nodes have non-negative box widths and
heights and positive viewport dimensions, `computeEnvelope` returns
scale `1` when the derived page dimensions fit the viewport (equality
included), returns `min(viewportW / pageWidth, viewportH /
pageHeight)` otherwise, and in no case returns a scale above `1`. -/
theorem claim_C1_scale (root : DocumentNode) (viewportW viewportH : ℚ)
    (hvw : 0 < viewportW) (hvh : 0 < viewportH)
    (hwh : ∀ m ∈ preorder root, 0 ≤ boxW m ∧ 0 ≤ boxH m) :
    (computeEnvelope root viewportW viewportH).scale ≤ 1 ∧
    ∀ n ns, collectNodesWithBBox root [] = n :: ns →
      (((pageDims (n :: ns)).1 ≤ viewportW ∧
        (pageDims (n :: ns)).2 ≤ viewportH) →
        (computeEnvelope root viewportW viewportH).scale = 1) ∧
      (¬((pageDims (n :: ns)).1 ≤ viewportW ∧
        (pageDims (n :: ns)).2 ≤ viewportH) →
        (computeEnvelope root viewportW viewportH).scale =
          min (viewportW / (pageDims (n :: ns)).1)
            (viewportH / (pageDims (n :: ns)).2)) := by
  cases hcol : collectNodesWithBBox root [] with
  | nil =>
    constructor
    · simp [computeEnvelope, hcol]
    · intro n ns heq
      exact absurd heq (by simp)
  | cons n0 ns0 =>
    obtain ⟨hpw, hph⟩ := pageDims_pos hcol hwh
    have hsc := computeEnvelope_scale_eq viewportW viewportH hcol
    constructor
    · rw [hsc]
      exact envScale_le_one hpw hph
    · intro n ns heq
      cases heq
      refine ⟨?_, ?_⟩
      · intro hle
        rw [hsc]
        unfold envScale
        rw [if_neg]
        push_neg
        exact ⟨hle.1, hle.2⟩
      · intro hnle
        rw [hsc]
        unfold envScale
        rw [if_pos]
        rcases not_and_or.mp hnle with h | h
        · exact Or.inl (not_le.mp h)
        · exact Or.inr (not_le.mp h)

/-- C1 witness: the theorem applied to a concrete tree and a positive
viewport. -/
theorem claim_C1_witness :
    (0 : ℚ) < 900 ∧ (0 : ℚ) < 600 ∧
    (∀ m ∈ preorder sampleTree, 0 ≤ boxW m ∧ 0 ≤ boxH m) ∧
    (computeEnvelope sampleTree 900 600).scale ≤ 1 :=
  ⟨by norm_num, by norm_num, by decide,
   (claim_C1_scale sampleTree 900 600 (by norm_num) (by norm_num) (by decide)).1⟩

/-- C10 (implicit): for every tree with non-negative box widths and
heights and positive viewport dimensions, the scale of the envelope
computed from that tree is strictly positive, and every primitive that
the projection under that envelope emits for a RECTANGLE or TEXT node
of the same tree that carries a bounding box has non-negative screen
coordinates, because the offset is the componentwise minimum over the
tree's boxed nodes. -/
theorem claim_C10_nonneg (root : DocumentNode) (viewportW viewportH : ℚ)
    (hvw : 0 < viewportW) (hvh : 0 < viewportH)
    (hwh : ∀ m ∈ preorder root, 0 ≤ boxW m ∧ 0 ≤ boxH m) :
    0 < (computeEnvelope root viewportW viewportH).scale ∧
    ∀ m ∈ preorder root, m.hasBox →
      (m.type = "RECTANGLE" ∨ m.type = "TEXT") →
      ∀ ps, projectNode m (computeEnvelope root viewportW viewportH).offset
          (computeEnvelope root viewportW viewportH).scale = some ps →
        ∀ p ∈ ps, 0 ≤ p.screenX ∧ 0 ≤ p.screenY := by
  cases hcol : collectNodesWithBBox root [] with
  | nil =>
    constructor
    · simp [computeEnvelope, hcol]
    · intro m hm hbox
      exfalso
      have : m ∈ collectNodesWithBBox root [] :=
        (mem_collect_iff root m).mpr ⟨hm, hbox⟩
      rw [hcol] at this
      exact absurd this (by simp)
  | cons n0 ns0 =>
    obtain ⟨hpw, hph⟩ := pageDims_pos hcol hwh
    have hsc := computeEnvelope_scale_eq viewportW viewportH hcol
    have hoff := computeEnvelope_offset_eq viewportW viewportH hcol
    have hscpos : 0 < (computeEnvelope root viewportW viewportH).scale := by
      rw [hsc]
      exact envScale_pos hpw hph hvw hvh
    refine ⟨hscpos, ?_⟩
    intro m hm hbox htype ps hp p hpmem
    have hmcol : m ∈ (n0 :: ns0) := by
      rw [← hcol]
      exact (mem_collect_iff root m).mpr ⟨hm, hbox⟩
    have hminx : envMinX (n0 :: ns0) ≤ boxX m := envMinX_le hmcol
    have hminy : envMinY (n0 :: ns0) ≤ boxY m := envMinY_le hmcol
    have hxoff : (computeEnvelope root viewportW viewportH).offset.x ≤ boxX m := by
      rw [hoff]; exact hminx
    have hyoff : (computeEnvelope root viewportW viewportH).offset.y ≤ boxY m := by
      rw [hoff]; exact hminy
    rcases htype with ht | ht
    · rw [projectNode_rect_eq _ _ ht] at hp
      cases hh : resolveFill m.fills with
      | none => rw [hh] at hp; simp at hp
      | some col =>
        rw [hh] at hp
        have hps : [VisualPrimitive.rect
            ((boxX m - (computeEnvelope root viewportW viewportH).offset.x) *
              (computeEnvelope root viewportW viewportH).scale)
            ((boxY m - (computeEnvelope root viewportW viewportH).offset.y) *
              (computeEnvelope root viewportW viewportH).scale)
            (boxW m * (computeEnvelope root viewportW viewportH).scale)
            (boxH m * (computeEnvelope root viewportW viewportH).scale) col] = ps := by
          simpa using hp
        rw [← hps] at hpmem
        simp only [List.mem_singleton] at hpmem
        subst hpmem
        constructor
        · exact mul_nonneg (by linarith) (le_of_lt hscpos)
        · exact mul_nonneg (by linarith) (le_of_lt hscpos)
    · rw [projectNode_text_eq _ _ ht] at hp
      have hps : [VisualPrimitive.textBlock
          ((boxX m - (computeEnvelope root viewportW viewportH).offset.x) *
            (computeEnvelope root viewportW viewportH).scale)
          ((boxY m - (computeEnvelope root viewportW viewportH).offset.y) *
            (computeEnvelope root viewportW viewportH).scale)
          (boxW m * (computeEnvelope root viewportW viewportH).scale)
          (boxH m * (computeEnvelope root viewportW viewportH).scale) "#222"
          ((resolveTextStyle m.style).2 *
            (computeEnvelope root viewportW viewportH).scale)
          (resolveTextStyle m.style).1 (m.characters.getD "")] = ps := by
        simpa using hp
      rw [← hps] at hpmem
      simp only [List.mem_singleton] at hpmem
      subst hpmem
      constructor
      · exact mul_nonneg (by linarith) (le_of_lt hscpos)
      · exact mul_nonneg (by linarith) (le_of_lt hscpos)

/-- C10 witness: strict positivity of the scale on a concrete tree. -/
theorem claim_C10_witness :
    (0 : ℚ) < 900 ∧ (0 : ℚ) < 600 ∧
    (∀ m ∈ preorder sampleTree, 0 ≤ boxW m ∧ 0 ≤ boxH m) ∧
    0 < (computeEnvelope sampleTree 900 600).scale :=
  ⟨by norm_num, by norm_num, by decide,
   (claim_C10_nonneg sampleTree 900 600 (by norm_num) (by norm_num) (by decide)).1⟩

end FigmaViewer
